import Mathlib

/-!
Shallow embedding of the `rem` task/reminder tracker (src/lib.rs, src/task.rs,
src/reminder.rs, src/main.rs).

Datetimes and durations are modelled as `Int` (seconds since the epoch /
seconds of duration), exactly as they are persisted: the store keeps
timestamp columns as integer seconds (`timestamp()` / `num_seconds()`), and
all comparisons in the program happen on these values.  The SQLite store is
modelled as lists of rows.  A fallible or possibly diverging computation
returns an `Outcome`: `ok` is Rust's `Ok`, `fail` is `Err`, `fatal` is a
Rust panic, and `hang` marks that the corresponding loop in the source does
not terminate (loops are modelled with explicit fuel; `hang` is produced
exactly when the supplied fuel runs out before the loop exit, and the
fuel passed by the callers is proven sufficient whenever the source loop
terminates).
-/

namespace Rem

/-- Result of a modelled computation: `ok`/`fail` mirror `Result`, `fatal`
mirrors a panic, `hang` mirrors non-termination of a source loop. -/
inductive Outcome (α : Type) where
  | ok (val : α)
  | fail (msg : String)
  | fatal (msg : String)
  | hang
deriving DecidableEq, Repr

/-- Row of the `tasks` table / `Task` struct (src/task.rs).  `work_bits` is
the hydrated list of `(datetime, description)` work bits of the task. -/
structure Task where
  id : Nat
  title : String
  description : Option String
  created : Int
  start : Option Int
  due : Option Int
  completed : Option Int
  generated_by : Option Nat
  work_bits : List (Int × Option String)
deriving DecidableEq, Repr

/-- Row of the `reminders` table / `Reminder` struct (src/reminder.rs).
The source field `until` is a Lean keyword, so it is called `untilT` here. -/
structure Reminder where
  id : Nat
  title : String
  description : Option String
  created : Int
  first_due : Int
  period : Int
  untilT : Option Int
deriving DecidableEq, Repr

/-- Row of the `work_bits` table (src/main.rs schema). -/
structure WorkBit where
  task_id : Nat
  datetime : Int
  description : Option String
deriving DecidableEq, Repr

/-- The persisted store: the three tables created by `App::try_init`. -/
structure Store where
  reminders : List Reminder
  tasks : List Task
  work_bits : List WorkBit
deriving DecidableEq, Repr

/-- Embeds `Reminder::is_active` (src/reminder.rs:43-45):
`self.until.map(|until| now < until).unwrap_or(true)`. -/
def Reminder.is_active (r : Reminder) (now : Int) : Bool :=
  (r.untilT.map (fun u => decide (now < u))).getD true

/-- The reminder-selection condition of `App::reminders_to_tasks`
(src/main.rs:172): SQL `until is NULL or until > ?1` with `?1 = now`. -/
def untilCond (now : Int) (r : Reminder) : Bool :=
  match r.untilT with
  | none => true
  | some u => decide (u > now)

/-- Fresh rowid handed out by the store for a task INSERT (SQLite assigns
`max existing id + 1`). -/
def freshTaskId (tasks : List Task) : Nat :=
  (tasks.map (fun t => t.id)).foldr Nat.max 0 + 1

/-- Fresh rowid handed out by the store for a reminder INSERT. -/
def freshReminderId (rs : List Reminder) : Nat :=
  (rs.map (fun r => r.id)).foldr Nat.max 0 + 1

/-- Embeds `App::add_task` (src/main.rs:144-165).  The source INSERT names
the columns `(title, description, created, start, due, completed,
generated_by)` but binds the values `(title, description, start, now, due,
NULL, generated_by)`: value 3 is the `start` argument and value 4 is the
`now` snapshot, so the `start` argument lands in the `created` column and
`now` lands in the `start` column.  `created` is declared `NOT NULL`, so a
missing `start` argument makes the INSERT fail with a constraint error. -/
def add_task (now : Int) (tasks : List Task) (title : String)
    (description : Option String) (start due : Option Int)
    (generated_by : Option Nat) : Outcome (List Task) :=
  match start with
  | none => Outcome.fail "could not insert task: NOT NULL constraint failed: tasks.created"
  | some s =>
      Outcome.ok (tasks ++
        [⟨freshTaskId tasks, title, description, s, some now, due, none, generated_by, []⟩])

/-- Stable insertion of a task into a list sorted ascending by the `due`
key, placing `t` before any element of equal key (the elements already in
the list come later in the original order). -/
def insertByDue (t : Task) : List Task → List Task
  | [] => [t]
  | u :: us =>
    if u.due.getD 0 < t.due.getD 0 then u :: insertByDue t us else t :: u :: us

/-- Models `generated_tasks.sort_by_cached_key(|x| x.due.expect(..))`
(src/main.rs:202-205): a stable ascending sort by the `due` timestamp;
observationally it yields the same list as the source's stable sort.  The
panic of `expect` on a missing due date is handled by the caller before
sorting. -/
def sortByDue : List Task → List Task
  | [] => []
  | t :: ts => insertByDue t (sortByDue ts)

/-- Fuel bound used to run the candidate loop of `App::reminders_to_tasks`.
When `0 < period` the loop body runs fewer than
`(now + period - first_due).toNat + 1` times, so this fuel is sufficient;
when `period <= 0` and the loop condition holds once, no finite fuel is
sufficient and the model yields `Outcome.hang`, matching the source's
non-terminating `while`. -/
def fuelFor (now : Int) (r : Reminder) : Nat :=
  (now + r.period - r.first_due).toNat + 1

/-- Embeds the candidate loop of `App::reminders_to_tasks`
(src/main.rs:210-232): `next_due` starts at `first_due` and the loop runs
`while next_due < now + period`; when no task in `gens` (the tasks already
generated by this reminder) has `due == next_due`, `add_task` is called with
start `next_due - period`, due `next_due` and `generated_by = reminder.id`;
then `next_due += period`. -/
def genLoop (now : Int) (r : Reminder) (gens : List Task) :
    Nat → Int → List Task → Outcome (List Task)
  | 0, _, _ => Outcome.hang
  | fuel + 1, next_due, tasks =>
    if next_due < now + r.period then
      if (gens.find? (fun t => t.due == some next_due)).isNone then
        match add_task now tasks r.title r.description (some (next_due - r.period))
            (some next_due) (some r.id) with
        | Outcome.ok tasks' => genLoop now r gens fuel (next_due + r.period) tasks'
        | Outcome.fail m => Outcome.fail m
        | Outcome.fatal m => Outcome.fatal m
        | Outcome.hang => Outcome.hang
      else genLoop now r gens fuel (next_due + r.period) tasks
    else Outcome.ok tasks

/-- Embeds the body of the reminder loop of `App::reminders_to_tasks`
(src/main.rs:186-233) for one reminder: load the tasks generated by this
reminder, sort them by `due` (`sort_by_cached_key` evaluates
`due.expect(..)` on every element, so a generated task without a due date is
a panic), then run the candidate loop. -/
def processReminder (now : Int) (tasks : List Task) (r : Reminder) :
    Outcome (List Task) :=
  let gens0 := tasks.filter (fun t => t.generated_by == some r.id)
  if gens0.any (fun t => t.due.isNone) then
    Outcome.fatal "elements of recurring sequence need to have due date"
  else
    genLoop now r (sortByDue gens0) (fuelFor now r) r.first_due tasks

/-- Iterates `processReminder` over the selected reminders in query order,
threading the task table through (src/main.rs:186). -/
def processAll (now : Int) : List Reminder → List Task → Outcome (List Task)
  | [], tasks => Outcome.ok tasks
  | r :: rs, tasks =>
    match processReminder now tasks r with
    | Outcome.ok tasks' => processAll now rs tasks'
    | Outcome.fail m => Outcome.fail m
    | Outcome.fatal m => Outcome.fatal m
    | Outcome.hang => Outcome.hang

/-- Embeds `App::reminders_to_tasks` (src/main.rs:167-236): select the
reminders with `until is NULL or until > now`, then for each one generate
the missing occurrence tasks. -/
def reminders_to_tasks (now : Int) (s : Store) : Outcome Store :=
  match processAll now (s.reminders.filter (fun r => untilCond now r)) s.tasks with
  | Outcome.ok tasks => Outcome.ok ⟨s.reminders, tasks, s.work_bits⟩
  | Outcome.fail m => Outcome.fail m
  | Outcome.fatal m => Outcome.fatal m
  | Outcome.hang => Outcome.hang

/-- The task table after a catch-up run (empty on a non-`ok` outcome);
projection used to state concrete properties of `reminders_to_tasks`. -/
def tasksAfter (now : Int) (s : Store) : List Task :=
  match reminders_to_tasks now s with
  | Outcome.ok s' => s'.tasks
  | _ => []

/-- Embeds `App::add_reminder` (src/main.rs:238-253): a plain INSERT, with
no validation of the period. -/
def add_reminder (now : Int) (s : Store) (title : String)
    (description : Option String) (first_due : Int) (period : Int)
    (untilT : Option Int) : Outcome Store :=
  let r : Reminder :=
    ⟨freshReminderId s.reminders, title, description, now, first_due, period, untilT⟩
  Outcome.ok { s with reminders := s.reminders ++ [r] }

/-- Embeds `App::stop_reminder` (src/main.rs:280-290): `UPDATE reminders SET
until = now WHERE id = ?`; the number of affected rows is not inspected, so
an absent id is not an error. -/
def stop_reminder (now : Int) (s : Store) (id : Nat) : Outcome Store :=
  let rs := s.reminders.map (fun r => if r.id == id then { r with untilT := some now } else r)
  Outcome.ok { s with reminders := rs }

/-- Embeds `App::delete_task` (src/main.rs:314-325): `DELETE FROM tasks
where ID = ?`; if the affected-row count is 0 the operation reports "ID not
found". -/
def delete_task (s : Store) (id : Nat) : Outcome Store :=
  let res := s.tasks.countP (fun t => t.id == id)
  if res = 0 then Outcome.fail "Could not delete Task. ID not found."
  else Outcome.ok { s with tasks := s.tasks.filter (fun t => !(t.id == id)) }

/-- Embeds `App::complete_task` (src/main.rs:327-354): `query_one` on an
absent id yields `QueryReturnedNoRows`, an error; an already-completed task
is a reported conflict; otherwise `completed` is set to `now`. -/
def complete_task (now : Int) (s : Store) (id : Nat) : Outcome Store :=
  match s.tasks.find? (fun t => t.id == id) with
  | none => Outcome.fail "Could not get task completion status: Query returned no rows"
  | some t =>
    match t.completed with
    | some _ => Outcome.fail "Could not mark task as completed. Already completed"
    | none =>
      let ts := s.tasks.map (fun u => if u.id == id then { u with completed := some now } else u)
      Outcome.ok { s with tasks := ts }

/-- Embeds `App::add_work_bit` (src/main.rs:356-378): a plain INSERT into
`work_bits`.  The schema declares a FOREIGN KEY on `task_id`, but the
program never turns foreign-key enforcement on (SQLite defaults to off), so
the INSERT succeeds for any `task_id` and the `assert_eq!(res, 1)` check on
the affected-row count holds. -/
def add_work_bit (now : Int) (s : Store) (task_id : Nat)
    (description : Option String) : Outcome Store :=
  Outcome.ok { s with work_bits := s.work_bits ++ [⟨task_id, now, description⟩] }

/-- Splits a character list at every space, like Rust's `str::split(' ')`:
an empty input yields one empty token, and consecutive spaces yield empty
tokens in between. -/
def splitSpaces : List Char → List Char → List (List Char)
  | [], acc => [acc.reverse]
  | c :: cs, acc =>
    if c = ' ' then acc.reverse :: splitSpaces cs [] else splitSpaces cs (c :: acc)

/-- Removes leading and trailing whitespace, like Rust's `str::trim` (the
inputs of interest are ascii). -/
def trimChars (cs : List Char) : List Char :=
  ((cs.dropWhile Char.isWhitespace).reverse.dropWhile Char.isWhitespace).reverse

/-- Numeric value of a list of decimal digit characters (most significant
first), the arithmetic behind Rust's `str::parse::<i64>` on a digit
string. -/
def digitsToNat : List Char → Nat → Nat
  | [], acc => acc
  | c :: cs, acc => digitsToNat cs (acc * 10 + (c.toNat - '0'.toNat))

/-- Embeds Rust `str::parse::<i64>` on the digit prefix extracted by
`parse_timedelta`: the input is all decimal digits by construction, so the
only failures are the empty string and overflow past `i64::MAX`. -/
def parseI64 (cs : List Char) : Outcome Int :=
  match cs with
  | [] => Outcome.fail "cannot parse integer from empty string"
  | _ :: _ =>
    let n := digitsToNat cs 0
    if n ≤ 9223372036854775807 then Outcome.ok (n : Int)
    else Outcome.fail "number too large to fit in target type"

/-- Embeds the token loop of `parse_timedelta` (src/main.rs:425-463),
accumulating the optional week and day counts.  For each token: take the
ascii-digit prefix as the number and the rest as the unit; more than one
unit character is an error; an empty unit reaches `desc[0]` on an empty
slice, which is an index-out-of-bounds panic; a repeated unit is an
error. -/
def timedeltaParts : List (List Char) → Option Int → Option Int →
    Outcome (Option Int × Option Int)
  | [], weeks, days => Outcome.ok (weeks, days)
  | part :: rest, weeks, days =>
    let idx := (part.takeWhile (fun c => c.isDigit)).length
    let num := part.take idx
    let desc := part.drop idx
    if desc.length > 1 then
      Outcome.fail "invalid duration specifier. Expected w or d."
    else
      match desc with
      | [] => Outcome.fatal "index out of bounds: the len is 0 but the index is 0"
      | c :: _ =>
        match parseI64 num with
        | Outcome.ok n =>
          match c with
          | 'w' =>
            match weeks with
            | some _ => Outcome.fail "Cannot specify weeks twice."
            | none => timedeltaParts rest (some n) days
          | 'd' =>
            match days with
            | some _ => Outcome.fail "Cannot specify days twice."
            | none => timedeltaParts rest weeks (some n)
          | _ => Outcome.fail "Invalid duration specifier. Expected w or d."
        | Outcome.fail m => Outcome.fail m
        | Outcome.fatal m => Outcome.fatal m
        | Outcome.hang => Outcome.hang

/-- Seconds in one day, the unit behind `TimeDelta::days`. -/
def secondsPerDay : Int := 86400

/-- Embeds `parse_timedelta` (src/main.rs:422-475).  The input is trimmed
and split on single spaces; the result is `days*86400 + (weeks*86400)*7`
seconds, i.e. `TimeDelta::days(days) + TimeDelta::days(weeks) * 7`. -/
def parse_timedelta (s : String) : Outcome Int :=
  match timedeltaParts (splitSpaces (trimChars s.toList) []) none none with
  | Outcome.ok (weeks, days) =>
    if weeks = none ∧ days = none then
      Outcome.fail "Need to specify either number of days or number of weeks."
    else
      Outcome.ok ((days.getD 0) * secondsPerDay + ((weeks.getD 0) * secondsPerDay) * 7)
  | Outcome.fail m => Outcome.fail m
  | Outcome.fatal m => Outcome.fatal m
  | Outcome.hang => Outcome.hang

/-- One output line of `Task::fmt` (src/task.rs:66-139), with terminal
coloring abstracted away except for the overdue emphasis of the due line,
which is kept as a flag. -/
inductive TLine where
  | heading (marker : String) (id : Nat) (title : String)
  | completed (t : Int)
  | created (t : Int)
  | start (t : Int)
  | due (t : Int) (overdue : Bool)
  | descr (s : String)
  | workBitsHeader
  | workBit (t : Int) (d : Option String)
deriving DecidableEq, Repr

/-- Embeds `Task::fmt` (src/task.rs:66-139) as the list of emitted lines:
nothing for a completed task unless `all`; the heading line; and, only when
`verbose`, the completed/created/start/due/description/work-bit lines in
that order. -/
def taskFmtLines (t : Task) (all verbose : Bool) (now : Int) : List TLine :=
  if all = false ∧ t.completed.isSome then []
  else
    let marker := if t.completed.isSome then "x" else " "
    let heading := [TLine.heading marker t.id t.title]
    if verbose = false then heading
    else
      heading
      ++ (match t.completed with | some c => [TLine.completed c] | none => [])
      ++ [TLine.created t.created]
      ++ (match t.start with | some s => [TLine.start s] | none => [])
      ++ (match t.due with
          | some d => [TLine.due d (!(decide (now < d)) && !(t.completed.isSome))]
          | none => [])
      ++ (match t.description with | some d => [TLine.descr d] | none => [])
      ++ (if t.work_bits.length > 0 then
            TLine.workBitsHeader :: t.work_bits.map (fun wb => TLine.workBit wb.1 wb.2)
          else [])

/-- One output line of `Reminder::fmt` (src/reminder.rs:47-87), with
terminal coloring abstracted away. -/
inductive RLine where
  | heading (marker : String) (id : Nat) (title : String)
  | created (t : Int)
  | firstDue (t : Int)
  | untilLine (t : Int)
  | nextDue (t : Int)
  | descr (s : String)
deriving DecidableEq, Repr

/-- Embeds the `next due` loop of `Reminder::fmt` (src/reminder.rs:77-80):
`next_due` starts at `first_due` and advances by `period` `while next_due <
now`.  Fuel-driven; `none` marks running out of fuel. -/
def nextDueLoop (period now : Int) : Nat → Int → Option Int
  | 0, _ => none
  | fuel + 1, next_due =>
    if next_due < now then nextDueLoop period now fuel (next_due + period)
    else some next_due

/-- Fuel bound for `nextDueLoop`: sufficient whenever `0 < period`. -/
def nextDueFuel (now first_due : Int) : Nat :=
  (now - first_due).toNat + 1

/-- Embeds `Reminder::fmt` (src/reminder.rs:47-87) as the list of emitted
lines: nothing for an inactive reminder unless `all`; otherwise the heading
and then — unconditionally, whatever `verbose` is (in the source `verbose`
only switches the heading color) — the created, first due, optional until,
next due and optional description lines.  `none` marks the non-termination
of the next-due loop. -/
def reminderFmtLines (r : Reminder) (all _verbose : Bool) (now : Int) :
    Option (List RLine) :=
  let active := r.is_active now
  if all = false ∧ active = false then some []
  else
    let marker := if active = false then "x" else " "
    match nextDueLoop r.period now (nextDueFuel now r.first_due) r.first_due with
    | none => none
    | some nd =>
      some ([RLine.heading marker r.id r.title, RLine.created r.created,
             RLine.firstDue r.first_due]
        ++ (match r.untilT with | some u => [RLine.untilLine u] | none => [])
        ++ [RLine.nextDue nd]
        ++ (match r.description with | some d => [RLine.descr d] | none => []))

/-- The reminder of the pinned end-to-end example: `first_due = 01.01.2024
08:00`, `period = 1w`, no `until`; timestamps are UTC epoch seconds
(01.01.2024 08:00 UTC = 1704096000, one week = 604800). -/
def exReminder : Reminder := ⟨1, "r", none, 0, 1704096000, 604800, none⟩

/-- Store holding only `exReminder` and no tasks. -/
def exStore : Store := ⟨[exReminder], [], []⟩

/-- The `now` of the pinned example: 22.01.2024 08:00 UTC. -/
def exNow : Int := 1705910400

theorem mem_insertByDue {x t : Task} {l : List Task} :
    x ∈ insertByDue t l ↔ x = t ∨ x ∈ l := by
  induction l with
  | nil => simp [insertByDue]
  | cons u us ih =>
    rw [insertByDue]
    by_cases h : u.due.getD 0 < t.due.getD 0
    · rw [if_pos h, List.mem_cons, ih, List.mem_cons]
      tauto
    · rw [if_neg h, List.mem_cons]

theorem mem_sortByDue {x : Task} {l : List Task} : x ∈ sortByDue l ↔ x ∈ l := by
  induction l with
  | nil => simp [sortByDue]
  | cons t ts ih => simp [sortByDue, mem_insertByDue, ih]

/-- An `ok` run of the candidate loop only appends tasks, and every appended
task was generated by the processed reminder and carries a due date. -/
theorem genLoop_ok_shape {now : Int} {r : Reminder} {gens : List Task} :
    ∀ {fuel : Nat} {d : Int} {tasks tasks₁ : List Task},
    genLoop now r gens fuel d tasks = Outcome.ok tasks₁ →
    ∃ ext, tasks₁ = tasks ++ ext ∧
      ∀ t ∈ ext, t.generated_by = some r.id ∧ t.due.isSome := by
  intro fuel
  induction fuel with
  | zero => intro d tasks tasks₁ h; simp [genLoop] at h
  | succ fuel ih =>
    intro d tasks tasks₁ h
    rw [genLoop] at h
    by_cases hc : d < now + r.period
    · rw [if_pos hc] at h
      by_cases hf : (gens.find? (fun t => t.due == some d)).isNone
      · rw [if_pos hf] at h
        simp only [add_task] at h
        obtain ⟨ext, hext, hprop⟩ := ih h
        refine ⟨⟨freshTaskId tasks, r.title, r.description, d - r.period, some now,
          some d, none, some r.id, []⟩ :: ext, ?_, ?_⟩
        · rw [hext]; simp
        · intro t ht
          rcases List.mem_cons.mp ht with h1 | h1
          · subst h1; exact ⟨rfl, rfl⟩
          · exact hprop t h1
      · rw [if_neg hf] at h
        exact ih h
    · rw [if_neg hc] at h
      cases h
      exact ⟨[], by simp, by simp⟩

/-- If a run of the candidate loop came back `ok`, a second run over any
task list whose generated-task set contains every task the first run could
see or created finds every candidate occurrence already present and changes
nothing. -/
theorem genLoop_stable {now : Int} {r : Reminder} {gens : List Task} :
    ∀ {fuel : Nat} {d : Int} {tasks tasks₁ : List Task},
    genLoop now r gens fuel d tasks = Outcome.ok tasks₁ →
    (∀ t ∈ gens, t ∈ tasks ∧ t.generated_by = some r.id) →
    ∀ {gens₂ tasks₂ : List Task},
    (∀ t ∈ tasks₁, t.generated_by = some r.id → t ∈ gens₂) →
    genLoop now r gens₂ fuel d tasks₂ = Outcome.ok tasks₂ := by
  intro fuel
  induction fuel with
  | zero => intro d tasks tasks₁ h; simp [genLoop] at h
  | succ fuel ih =>
    intro d tasks tasks₁ h hg gens₂ tasₖ h2
    rw [genLoop] at h ⊢
    by_cases hc : d < now + r.period
    · rw [if_pos hc] at h ⊢
      by_cases hf : (gens.find? (fun t => t.due == some d)).isNone
      · -- first run inserted the occurrence at d
        rw [if_pos hf] at h
        simp only [add_task] at h
        have hshape := genLoop_ok_shape h
        obtain ⟨ext, hext, -⟩ := hshape
        have hnew : (⟨freshTaskId tasks, r.title, r.description, d - r.period,
            some now, some d, none, some r.id, []⟩ : Task) ∈ tasks₁ := by
          rw [hext]; simp
        have hmem2 : (⟨freshTaskId tasks, r.title, r.description, d - r.period,
            some now, some d, none, some r.id, []⟩ : Task) ∈ gens₂ :=
          h2 _ hnew rfl
        have hfind2 : (gens₂.find? (fun t => t.due == some d)).isNone = false := by
          rw [Bool.eq_false_iff]
          intro hnone
          rw [Option.isNone_iff_eq_none, List.find?_eq_none] at hnone
          exact hnone _ hmem2 (by simp)
        rw [if_neg (by simp [hfind2])]
        exact ih h (fun t ht => ⟨List.mem_append_left _ (hg t ht).1, (hg t ht).2⟩) h2
      · -- first run found the occurrence at d in gens
        rw [if_neg hf] at h
        have hfsome : ∃ t0, gens.find? (fun t => t.due == some d) = some t0 := by
          cases ho : gens.find? (fun t => t.due == some d) with
          | none => rw [ho] at hf; simp at hf
          | some t0 => exact ⟨t0, rfl⟩
        obtain ⟨t0, ht0⟩ := hfsome
        have ht0gens : t0 ∈ gens := List.mem_of_find?_eq_some ht0
        have ht0due := List.find?_some ht0
        have ht0tasks : t0 ∈ tasks := (hg t0 ht0gens).1
        have ht0gen : t0.generated_by = some r.id := (hg t0 ht0gens).2
        obtain ⟨ext, hext, -⟩ := genLoop_ok_shape h
        have ht0tasks₁ : t0 ∈ tasks₁ := by rw [hext]; exact List.mem_append_left _ ht0tasks
        have hmem2 : t0 ∈ gens₂ := h2 _ ht0tasks₁ ht0gen
        have hfind2 : (gens₂.find? (fun t => t.due == some d)).isNone = false := by
          rw [Bool.eq_false_iff]
          intro hnone
          rw [Option.isNone_iff_eq_none, List.find?_eq_none] at hnone
          exact hnone _ hmem2 ht0due
        rw [if_neg (by simp [hfind2])]
        exact ih h hg h2
    · rw [if_neg hc] at h ⊢

/-- With a positive period, fuel beyond `(now + period - d).toNat` is enough
for the candidate loop to reach its exit. -/
theorem genLoop_sufficient {now : Int} {r : Reminder} {gens : List Task}
    (hp : 0 < r.period) :
    ∀ {fuel : Nat} {d : Int} {tasks : List Task},
    (now + r.period - d).toNat < fuel →
    ∃ out, genLoop now r gens fuel d tasks = Outcome.ok out := by
  intro fuel
  induction fuel with
  | zero => intro d tasks h; omega
  | succ fuel ih =>
    intro d tasks hlt
    rw [genLoop]
    by_cases hc : d < now + r.period
    · rw [if_pos hc]
      have hfuel : (now + r.period - (d + r.period)).toNat < fuel := by omega
      by_cases hf : (gens.find? (fun t => t.due == some d)).isNone
      · rw [if_pos hf]
        simp only [add_task]
        exact ih hfuel
      · rw [if_neg hf]
        exact ih hfuel
    · rw [if_neg hc]
      exact ⟨tasks, rfl⟩

/-- With period 0 and the loop condition initially true, the candidate loop
never exits: every amount of fuel is exhausted. -/
theorem genLoop_hang {now : Int} {r : Reminder} {gens : List Task}
    (hp : r.period = 0) :
    ∀ (fuel : Nat) (d : Int) (tasks : List Task), d < now →
    genLoop now r gens fuel d tasks = Outcome.hang := by
  intro fuel
  induction fuel with
  | zero => intro d tasks _; rfl
  | succ fuel ih =>
    intro d tasks hd
    rw [genLoop]
    have hc : d < now + r.period := by omega
    rw [if_pos hc]
    by_cases hf : (gens.find? (fun t => t.due == some d)).isNone
    · rw [if_pos hf]
      simp only [add_task]
      have : d + r.period = d := by omega
      rw [this]
      exact ih d _ hd
    · rw [if_neg hf]
      have : d + r.period = d := by omega
      rw [this]
      exact ih d _ hd

/-- With a positive period and enough fuel, the next-due loop of
`Reminder::fmt` returns the first value `first_due + k*period` that is
`>= now`. -/
theorem nextDueLoop_spec {p now : Int} (hp : 0 < p) :
    ∀ {fuel : Nat} {d : Int}, (now - d).toNat < fuel →
    ∃ k : Nat, nextDueLoop p now fuel d = some (d + k * p) ∧
      now ≤ d + k * p ∧ ∀ j : Nat, j < k → d + j * p < now := by
  intro fuel
  induction fuel with
  | zero => intro d h; omega
  | succ fuel ih =>
    intro d hlt
    rw [nextDueLoop]
    by_cases hc : d < now
    · rw [if_pos hc]
      have hfuel : (now - (d + p)).toNat < fuel := by omega
      obtain ⟨k, hk, hge, hmin⟩ := ih hfuel
      have hcast : d + p + (k : Int) * p = d + ((k : Nat) + 1 : Nat) * p := by
        push_cast
        ring
      refine ⟨k + 1, ?_, ?_, ?_⟩
      · rw [hk, hcast]
      · rw [← hcast]; exact hge
      · intro j hj
        cases j with
        | zero => simpa using hc
        | succ j =>
          have hmj := hmin j (by omega)
          have : d + ((j : Nat) + 1 : Nat) * p = d + p + (j : Int) * p := by
            push_cast
            ring
          rw [this]
          exact hmj
    · rw [if_neg hc]
      exact ⟨0, by simp, by omega, by omega⟩

/-- An `ok` reminder-processing step only appends tasks, and the appended
tasks are generated and due-dated. -/
theorem processReminder_ok_shape {now : Int} {tasks tasks₁ : List Task}
    {r : Reminder} (h : processReminder now tasks r = Outcome.ok tasks₁) :
    ∃ ext, tasks₁ = tasks ++ ext ∧
      ∀ t ∈ ext, t.generated_by.isSome ∧ t.due.isSome := by
  simp only [processReminder] at h
  by_cases hany : (tasks.filter (fun t => t.generated_by == some r.id)).any
      (fun t => t.due.isNone) = true
  · rw [if_pos hany] at h
    exact Outcome.noConfusion h
  · rw [if_neg hany] at h
    obtain ⟨ext, hext, hprop⟩ := genLoop_ok_shape h
    refine ⟨ext, hext, fun t ht => ⟨?_, (hprop t ht).2⟩⟩
    rw [(hprop t ht).1]
    rfl

/-- Processing a reminder a second time over any task list obtained from the
first result by appending generated, due-dated tasks re-finds every
occurrence and leaves the task table unchanged. -/
theorem processReminder_stable {now : Int} {tasks tasks₁ T : List Task}
    {r : Reminder} (h : processReminder now tasks r = Outcome.ok tasks₁)
    (hT : ∃ ext, T = tasks₁ ++ ext ∧
      ∀ t ∈ ext, t.generated_by.isSome → t.due.isSome) :
    processReminder now T r = Outcome.ok T := by
  obtain ⟨ext, hText, hextP⟩ := hT
  simp only [processReminder] at h ⊢
  by_cases hany : (tasks.filter (fun t => t.generated_by == some r.id)).any
      (fun t => t.due.isNone) = true
  · rw [if_pos hany] at h
    exact Outcome.noConfusion h
  · rw [if_neg hany] at h
    obtain ⟨ext₁, hext₁, hprop₁⟩ := genLoop_ok_shape h
    have hTmem : ∀ t : Task, t ∈ T → t.generated_by = some r.id → t.due.isSome := by
      intro t ht hgen
      rw [hText] at ht
      rcases List.mem_append.mp ht with ht1 | ht2
      · rw [hext₁] at ht1
        rcases List.mem_append.mp ht1 with hta | htb
        · have hmemf : t ∈ tasks.filter (fun u => u.generated_by == some r.id) := by
            rw [List.mem_filter]
            exact ⟨hta, by simp [hgen]⟩
          cases hdue : t.due with
          | none =>
            exact absurd (List.any_eq_true.mpr ⟨t, hmemf, by simp [hdue]⟩) hany
          | some d => rfl
        · exact (hprop₁ t htb).2
      · exact hextP t ht2 (by rw [hgen]; rfl)
    have hany2 : ¬ ((T.filter (fun t => t.generated_by == some r.id)).any
        (fun t => t.due.isNone) = true) := by
      intro hcon
      obtain ⟨t, htf, htn⟩ := List.any_eq_true.mp hcon
      rw [List.mem_filter] at htf
      have hgen : t.generated_by = some r.id := by simpa using htf.2
      have := hTmem t htf.1 hgen
      cases hdue : t.due with
      | none => rw [hdue] at this; exact absurd this (by simp)
      | some d => rw [hdue] at htn; exact absurd htn (by simp)
    rw [if_neg hany2]
    refine genLoop_stable h ?_ ?_
    · intro t ht
      rw [mem_sortByDue, List.mem_filter] at ht
      exact ⟨ht.1, by simpa using ht.2⟩
    · intro t ht hgen
      rw [mem_sortByDue, List.mem_filter]
      refine ⟨?_, by simp [hgen]⟩
      rw [hText]
      exact List.mem_append_left _ ht

/-- Unfolding step of `processAll` when the head reminder succeeds. -/
theorem processAll_cons_ok {now : Int} {r : Reminder} {rs : List Reminder}
    {tasks tasks₁ : List Task}
    (h : processReminder now tasks r = Outcome.ok tasks₁) :
    processAll now (r :: rs) tasks = processAll now rs tasks₁ := by
  rw [processAll, h]

/-- Inversion of an `ok` run of `processAll` on a cons cell. -/
theorem processAll_cons_inv {now : Int} {r : Reminder} {rs : List Reminder}
    {tasks T : List Task} (h : processAll now (r :: rs) tasks = Outcome.ok T) :
    ∃ tasks₁, processReminder now tasks r = Outcome.ok tasks₁ ∧
      processAll now rs tasks₁ = Outcome.ok T := by
  rw [processAll] at h
  cases hpr : processReminder now tasks r with
  | ok tasks₁ =>
    rw [hpr] at h
    exact ⟨tasks₁, rfl, h⟩
  | fail m => rw [hpr] at h; exact Outcome.noConfusion h
  | fatal m => rw [hpr] at h; exact Outcome.noConfusion h
  | hang => rw [hpr] at h; exact Outcome.noConfusion h

/-- An `ok` run over a reminder list only appends generated, due-dated
tasks. -/
theorem processAll_ok_shape {now : Int} :
    ∀ {rs : List Reminder} {tasks T : List Task},
    processAll now rs tasks = Outcome.ok T →
    ∃ ext, T = tasks ++ ext ∧ ∀ t ∈ ext, t.generated_by.isSome ∧ t.due.isSome := by
  intro rs
  induction rs with
  | nil =>
    intro tasks T h
    rw [processAll] at h
    cases h
    exact ⟨[], by simp, by simp⟩
  | cons r rs ih =>
    intro tasks T h
    obtain ⟨tasks₁, hpr, hrest⟩ := processAll_cons_inv h
    obtain ⟨e1, he1, hp1⟩ := processReminder_ok_shape hpr
    obtain ⟨e2, he2, hp2⟩ := ih hrest
    refine ⟨e1 ++ e2, ?_, ?_⟩
    · rw [he2, he1, List.append_assoc]
    · intro t ht
      rcases List.mem_append.mp ht with h1 | h1
      · exact hp1 t h1
      · exact hp2 t h1

/-- Running the reminder loop a second time over the tasks produced by a
first `ok` run changes nothing. -/
theorem processAll_stable {now : Int} :
    ∀ {rs : List Reminder} {tasks T : List Task},
    processAll now rs tasks = Outcome.ok T →
    processAll now rs T = Outcome.ok T := by
  intro rs
  induction rs with
  | nil =>
    intro tasks T h
    rw [processAll] at h
    cases h
    rfl
  | cons r rs ih =>
    intro tasks T h
    obtain ⟨tasks₁, hpr, hrest⟩ := processAll_cons_inv h
    obtain ⟨e2, he2, hp2⟩ := processAll_ok_shape hrest
    have hpr2 : processReminder now T r = Outcome.ok T :=
      processReminder_stable hpr ⟨e2, he2, fun t ht _ => (hp2 t ht).2⟩
    rw [processAll_cons_ok hpr2]
    exact ih hrest

/-- With period 0 and `d < now`, the next-due loop never exits. -/
theorem nextDueLoop_hang {now : Int} :
    ∀ (fuel : Nat) (d : Int), d < now → nextDueLoop 0 now fuel d = none := by
  intro fuel
  induction fuel with
  | zero => intro d _; rfl
  | succ fuel ih =>
    intro d hd
    rw [nextDueLoop, if_pos hd, add_zero]
    exact ih d hd

/-- Store resulting from the pinned example's catch-up run: the four
generated tasks (note `created` holds `due - period` and `start` holds the
`now` snapshot, reflecting the column/value mismatch in the source's
INSERT). -/
def exStoreAfter : Store :=
  ⟨[exReminder],
   [⟨1, "r", none, 1703491200, some 1705910400, some 1704096000, none, some 1, []⟩,
    ⟨2, "r", none, 1704096000, some 1705910400, some 1704700800, none, some 1, []⟩,
    ⟨3, "r", none, 1704700800, some 1705910400, some 1705305600, none, some 1, []⟩,
    ⟨4, "r", none, 1705305600, some 1705910400, some 1705910400, none, some 1, []⟩],
   []⟩

/-- Reminder with a period of 7 seconds used for the created/start swap
counterexample. -/
def bugReminder : Reminder := ⟨1, "water plants", some "desc", 0, 100, 7, none⟩

/-- Store holding only `bugReminder` and no tasks. -/
def bugStore : Store := ⟨[bugReminder], [], []⟩

/-- Reminder whose `until` is exactly 100, the `now` used in the boundary
counterexample. -/
def uReminder : Reminder := ⟨1, "u", none, 0, 40, 7, some 100⟩

/-- Store holding only `uReminder`. -/
def uStore : Store := ⟨[uReminder], [], []⟩

/-- Store with one reminder (id 2) and one task (id 1), for the
absent-id witness with id 5. -/
def smallStore : Store :=
  ⟨[⟨2, "r", none, 0, 0, 7, none⟩], [⟨1, "t", none, 0, none, none, none, none, []⟩], []⟩

/-- Catch-up leaves the reminder and work-bit tables untouched; when its
reminder loop succeeds, the resulting store is the input store with the new
task table. -/
theorem catch_up_idempotent_aux {now : Int} {s : Store} {T : List Task}
    (h : processAll now (s.reminders.filter (fun r => untilCond now r)) s.tasks
      = Outcome.ok T) :
    reminders_to_tasks now s = Outcome.ok ⟨s.reminders, T, s.work_bits⟩ := by
  rw [reminders_to_tasks, h]

/-- C1 (counterexample): on the pinned example — reminder with `first_due =
01.01.2024 08:00`, `period = 1w`, no previously generated tasks, catch-up at
`now = 22.01.2024 08:00` — the code inserts 4 generated tasks, not 3 as
claimed: the enumeration starts at `first_due` itself, so the occurrence due
01.01.2024 08:00 is generated as well. -/
theorem pinned_example_not_three_tasks :
    (tasksAfter exNow exStore).length = 4 ∧ (tasksAfter exNow exStore).length ≠ 3 := by
  decide

/-- C1 (amended): on the pinned example the catch-up run inserts exactly 4
generated tasks, with due timestamps 01.01.2024 08:00, 08.01.2024 08:00,
15.01.2024 08:00 and 22.01.2024 08:00 — the candidate due-times are
enumerated from `first_due` (inclusive) stepping by `+period` while
`due_time < now + period`. -/
theorem pinned_example_four_tasks_dues :
    (tasksAfter exNow exStore).map (fun t => t.due) =
      [some 1704096000, some 1704700800, some 1705305600, some 1705910400] := by
  decide

/-- C2: a task generated for the occurrence `due = 100` of a reminder with
period 7 at `now = 100` has title/description copied, `due = 100`,
`generated_by = 1` and `completed` absent as claimed — but its stored
`created` is 93 (`due - period`, the intended start) and its stored `start`
is 100 (the `now` snapshot, the intended created): the INSERT in
`App::add_task` binds the start value to the `created` column and `now` to
the `start` column. -/
theorem generated_task_created_start_swapped :
    tasksAfter 100 bugStore =
      [⟨1, "water plants", some "desc", 93, some 100, some 100, none, some 1, []⟩]
    ∧ (tasksAfter 100 bugStore).map (fun t => (t.created, t.start)) = [(93, some 100)] := by
  decide

/-- C3: catch-up is idempotent — whenever `reminders_to_tasks now` maps a
store `s` to `s₁`, running it again on `s₁` with the same `now` returns
`s₁` unchanged: every occurrence inserted by the first run is found again by
exact due-timestamp equality, so the second run inserts nothing. -/
theorem catch_up_idempotent (s : Store) (now : Int) (s₁ : Store)
    (h : reminders_to_tasks now s = Outcome.ok s₁) :
    reminders_to_tasks now s₁ = Outcome.ok s₁ := by
  rw [reminders_to_tasks] at h
  cases hpa : processAll now (s.reminders.filter (fun r => untilCond now r)) s.tasks with
  | ok T =>
    rw [hpa] at h
    have h' : Outcome.ok (⟨s.reminders, T, s.work_bits⟩ : Store) = Outcome.ok s₁ := h
    have hs : s₁ = ⟨s.reminders, T, s.work_bits⟩ := by
      injection h' with hx
      exact hx.symm
    subst hs
    exact catch_up_idempotent_aux (processAll_stable hpa)
  | fail m => rw [hpa] at h; exact Outcome.noConfusion h
  | fatal m => rw [hpa] at h; exact Outcome.noConfusion h
  | hang => rw [hpa] at h; exact Outcome.noConfusion h

/-- Witness for C3: the pinned example's run maps `exStore` to
`exStoreAfter`, and a second run leaves `exStoreAfter` unchanged. -/
theorem catch_up_idempotent_witness :
    reminders_to_tasks exNow exStore = Outcome.ok exStoreAfter
    ∧ reminders_to_tasks exNow exStoreAfter = Outcome.ok exStoreAfter :=
  ⟨by decide, catch_up_idempotent exStore exNow exStoreAfter (by decide)⟩

/-- C4: creating a task via the `task` command does not behave as claimed:
with no `--start` argument the INSERT fails outright (the NOT NULL `created`
column receives the absent start value), and with `--start 50` at `now =
100` the stored task has `created = 50` (the start argument) and `start =
some 100` (the now snapshot) — `App::add_task` binds the start value to the
`created` column and `now` to the `start` column. -/
theorem add_task_created_start_swapped :
    add_task 100 [] "T" none none none none =
      Outcome.fail "could not insert task: NOT NULL constraint failed: tasks.created"
    ∧ add_task 100 [] "T" none (some 50) (some 80) none =
      Outcome.ok [⟨1, "T", none, 50, some 100, some 80, none, none, []⟩] := by
  decide

/-- C5 (counterexample): a reminder whose `until` equals the run's `now`
(= 100) is NOT included in catch-up generation: the query condition
`until > now` is false at the boundary, so the run leaves the store
unchanged even though the reminder has pending occurrences
(`first_due = 40 < now`). -/
theorem until_eq_now_excluded_example :
    untilCond 100 uReminder = false
    ∧ reminders_to_tasks 100 uStore = Outcome.ok uStore := by
  decide

/-- C5 (amended): a reminder whose `until` equals the current run's `now` is
excluded by the generator's query condition (`until` absent or
`until > now`), in agreement with `Reminder::is_active`, which is likewise
false at the boundary `until = now`. -/
theorem until_eq_now_excluded (now : Int) (r : Reminder)
    (h : r.untilT = some now) :
    untilCond now r = false ∧ r.is_active now = false := by
  cases r with
  | mk id title description created first_due period untilT =>
    simp only at h
    subst h
    constructor
    · simp [untilCond]
    · simp [Reminder.is_active]

/-- Witness for C5 at `uReminder` and `now = 100`. -/
theorem until_eq_now_excluded_witness :
    uReminder.untilT = some 100
    ∧ untilCond 100 uReminder = false ∧ Reminder.is_active uReminder 100 = false :=
  ⟨rfl, until_eq_now_excluded 100 uReminder rfl⟩

/-- C6: the duration parser accepts `"0d"` and yields the zero duration, and
`App::add_reminder` stores the reminder with `period = 0` without any
validation — the code neither restricts parsed durations to positive values
nor rejects a non-positive period at reminder creation. -/
theorem zero_period_parsed_and_accepted :
    parse_timedelta "0d" = Outcome.ok 0
    ∧ add_reminder 100 ⟨[], [], []⟩ "t" none 50 0 none =
        Outcome.ok ⟨[⟨1, "t", none, 100, 50, 0, none⟩], [], []⟩ := by
  decide

/-- C7: `parse_timedelta` applied to the empty string does not return an
error value: splitting the trimmed empty input yields one empty token, whose
unit slice is empty, and indexing `desc[0]` panics with an index out of
bounds. -/
theorem parse_timedelta_empty_is_index_panic :
    parse_timedelta "" =
      Outcome.fatal "index out of bounds: the len is 0 but the index is 0" := by
  decide

/-- C8 (counterexample): on an empty store, `stop` with id 1 reports no
error (the UPDATE's affected-row count is never checked), and `record` with
id 1 reports no error AND mutates the store by inserting the work bit
(foreign keys are not enforced) — contradicting the claim that every
id-targeting operation reports a not-found failure and performs no
mutation. -/
theorem stop_record_absent_id_example :
    stop_reminder 5 ⟨[], [], []⟩ 1 = Outcome.ok ⟨[], [], []⟩
    ∧ add_work_bit 5 ⟨[], [], []⟩ 1 none = Outcome.ok ⟨[], [], [⟨1, 5, none⟩]⟩ := by
  decide

/-- C8 (amended): when the targeted id is absent from the store,
`delete-task` and `complete` report a not-found-style failure and perform no
mutation, but `stop` succeeds silently without mutating, and `record`
succeeds and inserts the (orphaned) work bit. -/
theorem absent_id_behavior (s : Store) (now : Int) (id : Nat) (d : Option String)
    (htask : ∀ t ∈ s.tasks, t.id ≠ id) (hrem : ∀ r ∈ s.reminders, r.id ≠ id) :
    delete_task s id = Outcome.fail "Could not delete Task. ID not found."
    ∧ complete_task now s id =
        Outcome.fail "Could not get task completion status: Query returned no rows"
    ∧ stop_reminder now s id = Outcome.ok s
    ∧ add_work_bit now s id d =
        Outcome.ok ⟨s.reminders, s.tasks, s.work_bits ++ [⟨id, now, d⟩]⟩ := by
  refine ⟨?_, ?_, ?_, ?_⟩
  · simp only [delete_task]
    rw [if_pos (List.countP_eq_zero.mpr (fun t ht => by simp [htask t ht]))]
  · simp only [complete_task]
    rw [List.find?_eq_none.mpr (fun t ht => by simp [htask t ht])]
  · simp only [stop_reminder]
    have hmap : s.reminders.map
        (fun r => if r.id == id then { r with untilT := some now } else r) = s.reminders := by
      conv_rhs => rw [← List.map_id s.reminders]
      exact List.map_congr_left (fun r hr => by
        rw [if_neg (by simp [hrem r hr])]
        rfl)
    rw [hmap]
  · rfl

/-- Witness for C8 at `smallStore` (task id 1, reminder id 2) and the absent
id 5. -/
theorem absent_id_behavior_witness :
    delete_task smallStore 5 = Outcome.fail "Could not delete Task. ID not found."
    ∧ complete_task 9 smallStore 5 =
        Outcome.fail "Could not get task completion status: Query returned no rows"
    ∧ stop_reminder 9 smallStore 5 = Outcome.ok smallStore
    ∧ add_work_bit 9 smallStore 5 none =
        Outcome.ok ⟨smallStore.reminders, smallStore.tasks,
          smallStore.work_bits ++ [⟨5, 9, none⟩]⟩ :=
  absent_id_behavior smallStore 9 5 none (by decide) (by decide)

/-- C9 (counterexample): a reminder rendered with `verbose = false` does not
produce the heading line only — for `exReminder` at `now = 1704000000` the
non-verbose output also contains the created, first-due and next-due
lines. -/
theorem reminder_nonverbose_lines_example :
    reminderFmtLines exReminder false false 1704000000 =
      some [RLine.heading " " 1 "r", RLine.created 0, RLine.firstDue 1704096000,
            RLine.nextDue 1704096000]
    ∧ [RLine.heading " " 1 "r", RLine.created 0, RLine.firstDue 1704096000,
       RLine.nextDue 1704096000] ≠ [RLine.heading " " 1 "r"] := by
  decide

/-- C9 (amended): a task rendered with `verbose = false` emits the heading
line only; a reminder's detail lines (created, first due, optional until,
next due, optional description) are emitted regardless of `verbose` (in the
source `verbose` only affects heading coloring); and the next-due line of an
active reminder with positive period prints the first value of the form
`first_due + k*period` that is `>= now`. -/
theorem fmt_lines_amended :
    (∀ (t : Task) (all : Bool) (now : Int), (t.completed = none ∨ all = true) →
      taskFmtLines t all false now =
        [TLine.heading (if t.completed.isSome then "x" else " ") t.id t.title])
    ∧ (∀ (r : Reminder) (all v₁ v₂ : Bool) (now : Int),
      reminderFmtLines r all v₁ now = reminderFmtLines r all v₂ now)
    ∧ (∀ (r : Reminder) (verbose : Bool) (now : Int), 0 < r.period →
      r.is_active now = true →
      ∃ (k : Nat) (rest : List RLine),
        reminderFmtLines r false verbose now =
          some (RLine.heading " " r.id r.title :: RLine.created r.created ::
                RLine.firstDue r.first_due :: rest)
        ∧ RLine.nextDue (r.first_due + k * r.period) ∈ rest
        ∧ now ≤ r.first_due + k * r.period
        ∧ ∀ j : Nat, j < k → r.first_due + j * r.period < now) := by
  refine ⟨?_, ?_, ?_⟩
  · intro t all now h
    rw [taskFmtLines]
    have hcond : ¬ (all = false ∧ t.completed.isSome = true) := by
      rcases h with h | h
      · rintro ⟨-, hs⟩
        rw [h] at hs
        exact absurd hs (by simp)
      · rintro ⟨hf, -⟩
        rw [h] at hf
        exact absurd hf (by simp)
    rw [if_neg hcond]
    simp
  · intro r all v₁ v₂ now
    rfl
  · intro r verbose now hp hact
    have hfuel : (now - r.first_due).toNat < nextDueFuel now r.first_due := by
      simp [nextDueFuel]
    obtain ⟨k, hk, hge, hmin⟩ := nextDueLoop_spec hp hfuel
    refine ⟨k,
      (match r.untilT with | some u => [RLine.untilLine u] | none => [])
        ++ [RLine.nextDue (r.first_due + k * r.period)]
        ++ (match r.description with | some dd => [RLine.descr dd] | none => []),
      ?_, by simp, hge, hmin⟩
    rw [reminderFmtLines]
    rw [hact]
    rw [hk]
    simp

/-- Witness for C9: the three parts instantiated at a concrete task and at
`exReminder`. -/
theorem fmt_lines_amended_witness :
    taskFmtLines ⟨1, "t", none, 0, none, none, none, none, []⟩ false false 0 =
      [TLine.heading " " 1 "t"]
    ∧ reminderFmtLines exReminder true true 5 = reminderFmtLines exReminder true false 5
    ∧ (∃ (k : Nat) (rest : List RLine),
        reminderFmtLines exReminder false false 1704000000 =
          some (RLine.heading " " exReminder.id exReminder.title ::
                RLine.created exReminder.created ::
                RLine.firstDue exReminder.first_due :: rest)
        ∧ RLine.nextDue (exReminder.first_due + k * exReminder.period) ∈ rest
        ∧ 1704000000 ≤ exReminder.first_due + k * exReminder.period
        ∧ ∀ j : Nat, j < k →
            exReminder.first_due + j * exReminder.period < 1704000000) :=
  ⟨fmt_lines_amended.1 ⟨1, "t", none, 0, none, none, none, none, []⟩ false 0 (Or.inl rfl),
   fmt_lines_amended.2.1 exReminder true true false 5,
   fmt_lines_amended.2.2 exReminder false 1704000000 (by decide) (by decide)⟩

/-- C10: with a positive period both source loops terminate for every
starting point — some finite fuel reaches the loop exit of the catch-up
candidate loop (`while next_due < now + period`) and of the display's
next-due loop (`while next_due < now`) — and with period 0 and the start
below the bound, neither loop ever exits, whatever the fuel. -/
theorem loop_termination_period :
    (∀ (r : Reminder) (now d : Int) (gens tasks : List Task), 0 < r.period →
      ∃ (fuel : Nat) (out : List Task),
        genLoop now r gens fuel d tasks = Outcome.ok out)
    ∧ (∀ (p now d : Int), 0 < p →
      ∃ (fuel : Nat) (nd : Int), nextDueLoop p now fuel d = some nd)
    ∧ (∀ (r : Reminder) (now : Int) (gens tasks : List Task) (fuel : Nat),
      r.period = 0 → r.first_due < now + r.period →
      genLoop now r gens fuel r.first_due tasks = Outcome.hang)
    ∧ (∀ (p now d : Int) (fuel : Nat), p = 0 → d < now →
      nextDueLoop p now fuel d = none) := by
  refine ⟨?_, ?_, ?_, ?_⟩
  · intro r now d gens tasks hp
    obtain ⟨out, hout⟩ :=
      @genLoop_sufficient now r gens hp ((now + r.period - d).toNat + 1) d tasks (by omega)
    exact ⟨(now + r.period - d).toNat + 1, out, hout⟩
  · intro p now d hp
    obtain ⟨k, hk, -, -⟩ :=
      @nextDueLoop_spec p now hp ((now - d).toNat + 1) d (by omega)
    exact ⟨(now - d).toNat + 1, d + k * p, hk⟩
  · intro r now gens tasks fuel hp hd
    exact genLoop_hang hp fuel r.first_due tasks (by omega)
  · intro p now d fuel hp hd
    subst hp
    exact nextDueLoop_hang fuel d hd

/-- Witness for C10: concrete instances with period 2 (termination) and
period 0 (divergence). -/
theorem loop_termination_period_witness :
    (∃ (fuel : Nat) (out : List Task),
      genLoop 10 ⟨1, "r", none, 0, 0, 2, none⟩ [] fuel 0 [] = Outcome.ok out)
    ∧ (∃ (fuel : Nat) (nd : Int), nextDueLoop 2 10 fuel 0 = some nd)
    ∧ genLoop 10 ⟨1, "r", none, 0, 0, 0, none⟩ [] 5 0 [] = Outcome.hang
    ∧ nextDueLoop 0 10 5 0 = none :=
  ⟨loop_termination_period.1 ⟨1, "r", none, 0, 0, 2, none⟩ 10 0 [] [] (by decide),
   loop_termination_period.2.1 2 10 0 (by decide),
   loop_termination_period.2.2.1 ⟨1, "r", none, 0, 0, 0, none⟩ 10 [] [] 5 rfl (by decide),
   loop_termination_period.2.2.2 0 10 0 5 rfl (by decide)⟩

end Rem
